import Mathlib

/-!
Shallow embedding of the sparse world-state engine of the tile-based
exploration/crafting game implemented in `src/main.ts`.

The embedding models the module-level mutable state (`playerCell`,
`inventory`, `modifiedCells`, `cellLayers`) as an explicit `GameState`
record, JS `Map` objects as `Finmap`s keyed by cell identity (the JS code
keys its maps by the string `"i,j"`, which is in bijection with the pair
`(i, j)`), JS numbers holding token values and cell indices as `Int`, and
continuous latitude/longitude coordinates as `ℚ` (rational constants are
written with `mkRat`; sanity lemmas below restate them as the source's
decimal fractions).  The deterministic `luck` hash is opaque in the
source, so the semantics is parametrised by a function
`luckFn : Int → Int → ℚ` standing for `luck([i, j, "token"].toString())`.
UI side effects that the spec treats as observable signals (`flashCell`,
`showNotification`) are modelled as an emitted list of `Signal` values;
pure rendering refreshes (`updateInventoryUI`, tooltip and style updates)
carry no game state and are not modelled.
-/

namespace WorldOfBits

/-- Cell identity `{ i, j }` from `src/main.ts` (`type Cell`). -/
structure Cell where
  i : Int
  j : Int
deriving DecidableEq

/-- Token type `type Token = { value: number } | null`: `some v` is
`{ value: v }`, `none` is `null`. -/
abbrev Token := Option Int

/-- Override store type: the JS `Map<CellKey, Token>` behind
`modifiedCells`, keyed by `"i,j"`, which identifies the cell. -/
abbrev Store := Finmap fun _ : Cell => Token

/-- Constant `TILE_DEGREES = 1e-4` (cell size in degrees). -/
def TILE_DEGREES : ℚ := mkRat 1 10000

/-- Constant `INTERACT_RADIUS = 3` (cells, Chebyshev distance). -/
def INTERACT_RADIUS : Int := 3

/-- Constant `TARGET_VALUE = 8` (value that triggers the crafted
notification). -/
def TARGET_VALUE : Int := 8

/-- Constant `TOKEN_SPAWN_THRESHOLD = 0.96`. -/
def TOKEN_SPAWN_THRESHOLD : ℚ := mkRat 96 100

/-- Constant `TOKEN_VALUE_16_THRESHOLD = 0.997`. -/
def TOKEN_VALUE_16_THRESHOLD : ℚ := mkRat 997 1000

/-- Constant `TOKEN_VALUE_8_THRESHOLD = 0.99`. -/
def TOKEN_VALUE_8_THRESHOLD : ℚ := mkRat 99 100

/-- Constant `TOKEN_VALUE_4_THRESHOLD = 0.975`. -/
def TOKEN_VALUE_4_THRESHOLD : ℚ := mkRat 975 1000

/-- Function `latLngToCell(lat, lng)`: `Math.floor` of each coordinate
divided by `TILE_DEGREES`. -/
def latLngToCell (lat lng : ℚ) : Cell :=
  ⟨⌊lat / TILE_DEGREES⌋, ⌊lng / TILE_DEGREES⌋⟩

/-- Function `initialTokenForCell(i, j)`: the deterministic generator
policy applied to the opaque hash value `r = luckFn i j`. -/
def initialTokenForCell (luckFn : Int → Int → ℚ) (i j : Int) : Token :=
  let r := luckFn i j
  if r < TOKEN_SPAWN_THRESHOLD then none
  else if TOKEN_VALUE_16_THRESHOLD < r then some 16
  else if TOKEN_VALUE_8_THRESHOLD < r then some 8
  else if TOKEN_VALUE_4_THRESHOLD < r then some 4
  else some 2

/-- The module-level mutable state of `src/main.ts`: player cell,
single-slot inventory, the override store `modifiedCells`, and the key
set of the drawn-layer map `cellLayers` (the Leaflet rectangle handles
themselves are rendering data; only which keys are materialized matters
to the core). -/
structure GameState where
  playerCell : Cell
  inventory : Token
  modifiedCells : Store
  cellLayers : Finset Cell
deriving DecidableEq

/-- Function `getCellToken(i, j)`: the stored override is authoritative
when present (`modifiedCells.get(key) ?? null`, guarded by
`modifiedCells.has(key)`), otherwise the generator output. -/
def getCellToken (luckFn : Int → Int → ℚ) (s : GameState) (i j : Int) :
    Token :=
  match s.modifiedCells.lookup ⟨i, j⟩ with
  | some t => t
  | none => initialTokenForCell luckFn i j

/-- Function `isInRange(i, j, radius)`: Chebyshev distance from the
player cell is at most `radius`. -/
def isInRange (p : Cell) (i j radius : Int) : Bool :=
  decide (max |i - p.i| |j - p.j| ≤ radius)

/-- Observable UI feedback emitted by the interaction handler:
`flash i j` models `flashCell(i, j)` recolouring the cell's layer, and
`notification v` models `showNotification('Crafted v!')`. -/
inductive Signal where
  | flash (i j : Int)
  | notification (v : Int)
deriving DecidableEq

/-- Function `flashCell(i, j)`: flashes the cell's drawn layer; if the
cell has no layer (`if (!layer) return`) nothing observable happens. -/
def flashCell (s : GameState) (i j : Int) : List Signal :=
  if (⟨i, j⟩ : Cell) ∈ s.cellLayers then [Signal.flash i j] else []

/-- Function `onCellClick(i, j)`: the interaction state machine.
Returns the updated state and the emitted signals.  Branches in source
order: range gate, pickup, place, craft, fallthrough flash.  Accepted
branches call `drawOrUpdateCell`, which re-creates the cell's layer
(`removeCellLayer(key)` followed by `cellLayers.set(key, rect)`). -/
def onCellClick (luckFn : Int → Int → ℚ) (s : GameState) (i j : Int) :
    GameState × List Signal :=
  if ¬ (isInRange s.playerCell i j INTERACT_RADIUS = true) then
    (s, flashCell s i j)
  else
    let cellToken := getCellToken luckFn s i j
    match s.inventory, cellToken with
    | none, some v =>
        ({ s with
            inventory := some v
            modifiedCells := s.modifiedCells.insert ⟨i, j⟩ none
            cellLayers := insert ⟨i, j⟩ s.cellLayers }, [])
    | some v, none =>
        ({ s with
            inventory := none
            modifiedCells := s.modifiedCells.insert ⟨i, j⟩ (some v)
            cellLayers := insert ⟨i, j⟩ s.cellLayers }, [])
    | some v, some w =>
        if v = w then
          ({ s with
              inventory := none
              modifiedCells := s.modifiedCells.insert ⟨i, j⟩ (some (v * 2))
              cellLayers := insert ⟨i, j⟩ s.cellLayers },
           if TARGET_VALUE ≤ v * 2 then [Signal.notification (v * 2)]
           else [])
        else (s, flashCell s i j)
    | none, none => (s, flashCell s i j)

/-- The axis-aligned block of cells
`(i, j)` with `loI ≤ i ≤ hiI` and `loJ ≤ j ≤ hiJ` as a `Finset`, used for
both the drawn range and the buffered visible set in `drawVisibleGrid`. -/
def cellRange (loI hiI loJ hiJ : Int) : Finset Cell :=
  (Finset.Icc loI hiI ×ˢ Finset.Icc loJ hiJ).image fun p => ⟨p.1, p.2⟩

/-- Set `visibleKeys` built in `drawVisibleGrid`: the viewport cell range
extended by the hard-coded buffer of 2 cells on every side. -/
def visibleKeys (minI maxI minJ maxJ : Int) : Finset Cell :=
  cellRange (minI - 2) (maxI + 2) (minJ - 2) (maxJ + 2)

/-- Function `drawVisibleGrid()`: the reconciliation pass.  The source
derives `minI`, `maxI`, `minJ`, `maxJ` from the map's current south-west
and north-east corners through `latLngToCell` (an external rendering
input; `latLngToCell` itself is modelled and verified separately), builds
`visibleKeys` with the 2-cell buffer, removes layers whose keys left the
visible set (`removeCellLayer` only deletes from `cellLayers`), and
(re)draws every cell in the viewport range.  Only `cellLayers` changes;
`modifiedCells`, `inventory` and `playerCell` are untouched. -/
def drawVisibleGrid (s : GameState) (minI maxI minJ maxJ : Int) :
    GameState :=
  let vis := visibleKeys minI maxI minJ maxJ
  let kept := s.cellLayers.filter fun c => c ∈ vis
  { s with cellLayers := kept ∪ cellRange minI maxI minJ maxJ }

/-- Function `movePlayer(di, dj)`: shifts the player cell and redraws the
grid for the map's new bounds (supplied by the rendering collaborator). -/
def movePlayer (s : GameState) (di dj minI maxI minJ maxJ : Int) :
    GameState :=
  drawVisibleGrid
    { s with playerCell := ⟨s.playerCell.i + di, s.playerCell.j + dj⟩ }
    minI maxI minJ maxJ

/-- External events driving the core: a click on a cell, a `moveend`
redraw with the map's current viewport cell range, and a player move
followed by a redraw. -/
inductive Event where
  | click (i j : Int)
  | redraw (minI maxI minJ maxJ : Int)
  | move (di dj minI maxI minJ maxJ : Int)
deriving DecidableEq

/-- One externally triggered event, processed to completion. -/
def step (luckFn : Int → Int → ℚ) (s : GameState) :
    Event → GameState × List Signal
  | .click i j => onCellClick luckFn s i j
  | .redraw a b c d => (drawVisibleGrid s a b c d, [])
  | .move di dj a b c d => (movePlayer s di dj a b c d, [])

/-- Run a sequence of events, concatenating the emitted signals. -/
def run (luckFn : Int → Int → ℚ) (s : GameState) :
    List Event → GameState × List Signal
  | [] => (s, [])
  | e :: es =>
      let p := step luckFn s e
      let q := run luckFn p.1 es
      (q.1, p.2 ++ q.2)

/-- The initial session state: player at Null Island `(0, 0)`, empty
inventory, empty override store, nothing drawn yet. -/
def init : GameState := ⟨⟨0, 0⟩, none, ∅, ∅⟩

/-- Predicate: the click reaches the pickup, place or craft branch of
`onCellClick` rather than being rejected by the range gate or the
invalid-combination fallthrough. -/
def clickAccepted (luckFn : Int → Int → ℚ) (s : GameState) (i j : Int) :
    Bool :=
  isInRange s.playerCell i j INTERACT_RADIUS &&
    match s.inventory, getCellToken luckFn s i j with
    | none, some _ => true
    | some _, none => true
    | some v, some w => v == w
    | none, none => false

/-- The set of distinct cells targeted by an accepted pickup, place or
craft along a run. -/
def touchedCells (luckFn : Int → Int → ℚ) :
    GameState → List Event → Finset Cell
  | _, [] => ∅
  | s, e :: es =>
      let rest := touchedCells luckFn (step luckFn s e).1 es
      match e with
      | .click i j =>
          if clickAccepted luckFn s i j then insert (⟨i, j⟩ : Cell) rest
          else rest
      | _ => rest

/-- Sanity check: the `mkRat` constants are the source's decimals. -/
theorem threshold_values :
    TILE_DEGREES = 1 / 10000 ∧
    TOKEN_SPAWN_THRESHOLD = 96 / 100 ∧
    TOKEN_VALUE_16_THRESHOLD = 997 / 1000 ∧
    TOKEN_VALUE_8_THRESHOLD = 99 / 100 ∧
    TOKEN_VALUE_4_THRESHOLD = 975 / 1000 := by
  refine ⟨?_, ?_, ?_, ?_, ?_⟩ <;>
    simp [TILE_DEGREES, TOKEN_SPAWN_THRESHOLD, TOKEN_VALUE_16_THRESHOLD,
      TOKEN_VALUE_8_THRESHOLD, TOKEN_VALUE_4_THRESHOLD, Rat.mkRat_eq_div]

/-! Branch lemmas for `onCellClick`, one per source branch. -/

/-- Range gate: an out-of-range click flashes and changes nothing. -/
theorem onCellClick_out (luckFn : Int → Int → ℚ) (s : GameState)
    (i j : Int) (h : isInRange s.playerCell i j INTERACT_RADIUS = false) :
    onCellClick luckFn s i j = (s, flashCell s i j) := by
  unfold onCellClick
  rw [h]
  simp

/-- Pickup branch. -/
theorem onCellClick_pickup (luckFn : Int → Int → ℚ) (s : GameState)
    (i j v : Int)
    (hin : isInRange s.playerCell i j INTERACT_RADIUS = true)
    (hinv : s.inventory = none)
    (htok : getCellToken luckFn s i j = some v) :
    onCellClick luckFn s i j =
      ({ s with
          inventory := some v
          modifiedCells := s.modifiedCells.insert ⟨i, j⟩ none
          cellLayers := insert ⟨i, j⟩ s.cellLayers }, []) := by
  unfold onCellClick
  rw [hin]
  simp [hinv, htok]

/-- Place branch. -/
theorem onCellClick_place (luckFn : Int → Int → ℚ) (s : GameState)
    (i j v : Int)
    (hin : isInRange s.playerCell i j INTERACT_RADIUS = true)
    (hinv : s.inventory = some v)
    (htok : getCellToken luckFn s i j = none) :
    onCellClick luckFn s i j =
      ({ s with
          inventory := none
          modifiedCells := s.modifiedCells.insert ⟨i, j⟩ (some v)
          cellLayers := insert ⟨i, j⟩ s.cellLayers }, []) := by
  unfold onCellClick
  rw [hin]
  simp [hinv, htok]

/-- Craft branch (equal values). -/
theorem onCellClick_craft (luckFn : Int → Int → ℚ) (s : GameState)
    (i j v : Int)
    (hin : isInRange s.playerCell i j INTERACT_RADIUS = true)
    (hinv : s.inventory = some v)
    (htok : getCellToken luckFn s i j = some v) :
    onCellClick luckFn s i j =
      ({ s with
          inventory := none
          modifiedCells := s.modifiedCells.insert ⟨i, j⟩ (some (v * 2))
          cellLayers := insert ⟨i, j⟩ s.cellLayers },
       if TARGET_VALUE ≤ v * 2 then [Signal.notification (v * 2)]
       else []) := by
  unfold onCellClick
  rw [hin]
  simp [hinv, htok]

/-- Mismatch fallthrough: both tokens present with different values. -/
theorem onCellClick_mismatch (luckFn : Int → Int → ℚ) (s : GameState)
    (i j v w : Int)
    (hin : isInRange s.playerCell i j INTERACT_RADIUS = true)
    (hinv : s.inventory = some v)
    (htok : getCellToken luckFn s i j = some w)
    (hne : v ≠ w) :
    onCellClick luckFn s i j = (s, flashCell s i j) := by
  unfold onCellClick
  rw [hin]
  simp [hinv, htok, hne]

/-- Empty-on-empty fallthrough: nothing to pick up or place. -/
theorem onCellClick_nothing (luckFn : Int → Int → ℚ) (s : GameState)
    (i j : Int)
    (hin : isInRange s.playerCell i j INTERACT_RADIUS = true)
    (hinv : s.inventory = none)
    (htok : getCellToken luckFn s i j = none) :
    onCellClick luckFn s i j = (s, flashCell s i j) := by
  unfold onCellClick
  rw [hin]
  simp [hinv, htok]

/-- Keys of the override store after a `Map.set`. -/
theorem keys_insert_store (a : Cell) (b : Token) (m : Store) :
    (m.insert a b).keys = insert a m.keys := by
  ext c
  simp [Finmap.mem_keys, Finmap.mem_insert]

/-- Membership in an axis-aligned cell block. -/
theorem mem_cellRange {c : Cell} {loI hiI loJ hiJ : Int} :
    c ∈ cellRange loI hiI loJ hiJ ↔
      (loI ≤ c.i ∧ c.i ≤ hiI) ∧ loJ ≤ c.j ∧ c.j ≤ hiJ := by
  obtain ⟨i, j⟩ := c
  constructor
  · intro h
    simp only [cellRange, Finset.mem_image, Finset.mem_product,
      Finset.mem_Icc] at h
    obtain ⟨⟨a, b⟩, ⟨⟨h1, h2⟩, h3, h4⟩, heq⟩ := h
    cases heq
    exact ⟨⟨h1, h2⟩, h3, h4⟩
  · intro h
    simp only [cellRange, Finset.mem_image, Finset.mem_product,
      Finset.mem_Icc]
    exact ⟨(i, j), ⟨⟨h.1.1, h.1.2⟩, h.2.1, h.2.2⟩, rfl⟩

/-- Keys of the override store after one click: an accepted click adds
exactly the clicked cell, a rejected click changes nothing. -/
theorem onCellClick_keys (luckFn : Int → Int → ℚ) (s : GameState)
    (i j : Int) :
    ((onCellClick luckFn s i j).1.modifiedCells).keys =
      (if clickAccepted luckFn s i j = true
       then insert (⟨i, j⟩ : Cell) s.modifiedCells.keys
       else s.modifiedCells.keys) := by
  by_cases hin : isInRange s.playerCell i j INTERACT_RADIUS = true
  · cases hinv : s.inventory with
    | none =>
      cases htok : getCellToken luckFn s i j with
      | none =>
        rw [onCellClick_nothing luckFn s i j hin hinv htok]
        have hacc : clickAccepted luckFn s i j = false := by
          unfold clickAccepted
          rw [hinv, htok]
          simp
        rw [hacc]
        simp
      | some v =>
        rw [onCellClick_pickup luckFn s i j v hin hinv htok]
        have hacc : clickAccepted luckFn s i j = true := by
          unfold clickAccepted
          rw [hin, hinv, htok]
          simp
        rw [hacc]
        simp [keys_insert_store]
    | some v =>
      cases htok : getCellToken luckFn s i j with
      | none =>
        rw [onCellClick_place luckFn s i j v hin hinv htok]
        have hacc : clickAccepted luckFn s i j = true := by
          unfold clickAccepted
          rw [hin, hinv, htok]
          simp
        rw [hacc]
        simp [keys_insert_store]
      | some w =>
        by_cases hvw : v = w
        · subst hvw
          rw [onCellClick_craft luckFn s i j v hin hinv htok]
          have hacc : clickAccepted luckFn s i j = true := by
            unfold clickAccepted
            rw [hin, hinv, htok]
            simp
          rw [hacc]
          simp [keys_insert_store]
        · rw [onCellClick_mismatch luckFn s i j v w hin hinv htok hvw]
          have hacc : clickAccepted luckFn s i j = false := by
            unfold clickAccepted
            rw [hinv, htok]
            simp [hvw]
          rw [hacc]
          simp
  · have hfalse : isInRange s.playerCell i j INTERACT_RADIUS = false := by
      simpa using hin
    rw [onCellClick_out luckFn s i j hfalse]
    have hacc : clickAccepted luckFn s i j = false := by
      unfold clickAccepted
      rw [hfalse]
      simp
    rw [hacc]
    simp

/-- Reconciliation and movement never touch the override store. -/
theorem step_store_nonclick (luckFn : Int → Int → ℚ) (s : GameState)
    (e : Event) (h : ∀ i j : Int, e ≠ Event.click i j) :
    ((step luckFn s e).1.modifiedCells) = s.modifiedCells := by
  cases e with
  | click i j => exact absurd rfl (h i j)
  | redraw a b c d => rfl
  | move di dj a b c d => rfl

/-- Along any run, the override store's key set grows by exactly the
cells of accepted clicks. -/
theorem run_store_keys (luckFn : Int → Int → ℚ) (es : List Event) :
    ∀ s : GameState,
      ((run luckFn s es).1.modifiedCells).keys =
        s.modifiedCells.keys ∪ touchedCells luckFn s es := by
  induction es with
  | nil =>
    intro s
    simp [run, touchedCells]
  | cons e es ih =>
    intro s
    have hrun : (run luckFn s (e :: es)).1 =
        (run luckFn (step luckFn s e).1 es).1 := rfl
    rw [hrun, ih]
    cases e with
    | click i j =>
      have htc : touchedCells luckFn s (Event.click i j :: es) =
          (if clickAccepted luckFn s i j = true
           then insert (⟨i, j⟩ : Cell)
             (touchedCells luckFn (step luckFn s (Event.click i j)).1 es)
           else touchedCells luckFn (step luckFn s (Event.click i j)).1 es) := by
        rfl
      rw [htc]
      have hk : ((step luckFn s (Event.click i j)).1.modifiedCells).keys =
          (if clickAccepted luckFn s i j = true
           then insert (⟨i, j⟩ : Cell) s.modifiedCells.keys
           else s.modifiedCells.keys) :=
        onCellClick_keys luckFn s i j
      rw [hk]
      by_cases hacc : clickAccepted luckFn s i j = true
      · rw [if_pos hacc, if_pos hacc, Finset.insert_union,
          Finset.union_insert]
      · rw [if_neg hacc, if_neg hacc]
    | redraw a b c d =>
      have hs : ((step luckFn s (Event.redraw a b c d)).1.modifiedCells) =
          s.modifiedCells := rfl
      have ht : touchedCells luckFn s (Event.redraw a b c d :: es) =
          touchedCells luckFn (step luckFn s (Event.redraw a b c d)).1 es :=
        rfl
      rw [hs, ht]
    | move di dj a b c d =>
      have hs :
          ((step luckFn s (Event.move di dj a b c d)).1.modifiedCells) =
            s.modifiedCells := rfl
      have ht : touchedCells luckFn s (Event.move di dj a b c d :: es) =
          touchedCells luckFn (step luckFn s (Event.move di dj a b c d)).1
            es := rfl
      rw [hs, ht]

end WorldOfBits

namespace WorldOfBits

/-! Concrete fixtures reused by witnesses and counterexamples. -/

/-- Hash stub returning 0 everywhere: every cell generates no token. -/
def luckZero : Int → Int → ℚ := fun _ _ => 0

/-- Hash stub giving cells (0,0)..(0,3) the value 0.995 (token 8). -/
def luckCraft (i j : Int) : ℚ :=
  if i = 0 ∧ (j = 0 ∨ j = 1 ∨ j = 2 ∨ j = 3) then mkRat 995 1000 else 0

/-- Ordering facts between the generator thresholds. -/
theorem threshold_order :
    TOKEN_SPAWN_THRESHOLD < TOKEN_VALUE_4_THRESHOLD ∧
    TOKEN_VALUE_4_THRESHOLD < TOKEN_VALUE_8_THRESHOLD ∧
    TOKEN_VALUE_8_THRESHOLD < TOKEN_VALUE_16_THRESHOLD := by
  refine ⟨?_, ?_, ?_⟩ <;> decide

/-- C1: for every cell (i,j), the effective token of the cell equals the
token stored in its override memento when a memento exists (including a
stored `null`, which is authoritative and yields no token), and equals
the deterministic generator's output when no memento exists. -/
theorem spec_C1 (luckFn : Int → Int → ℚ) (s : GameState) (i j : Int) :
    getCellToken luckFn s i j =
      (s.modifiedCells.lookup ⟨i, j⟩).getD (initialTokenForCell luckFn i j) ∧
    (∀ t : Token, s.modifiedCells.lookup ⟨i, j⟩ = some t →
      getCellToken luckFn s i j = t) ∧
    (s.modifiedCells.lookup ⟨i, j⟩ = none →
      getCellToken luckFn s i j = initialTokenForCell luckFn i j) := by
  unfold getCellToken
  cases h : s.modifiedCells.lookup ⟨i, j⟩ <;> simp [h]

/-- State with cell (0,0) emptied by the player (memento `null`). -/
def sEmptied : GameState :=
  ⟨⟨0, 0⟩, none, Finmap.insert ⟨0, 0⟩ (none : Token) ∅, ∅⟩

/-- Witness for C1: the stored `null` memento on (0,0) is authoritative,
so the effective token is absent. -/
theorem spec_C1_witness :
    sEmptied.modifiedCells.lookup ⟨0, 0⟩ = some none ∧
    getCellToken luckZero sEmptied 0 0 = none :=
  ⟨by decide, (spec_C1 luckZero sEmptied 0 0).2.1 none (by decide)⟩

/-- C3: the generator returns no token when r < 0.96, value 16 when
r > 0.997, value 8 when 0.99 < r ≤ 0.997, value 4 when 0.975 < r ≤ 0.99,
and value 2 otherwise (0.96 ≤ r ≤ 0.975 as implemented, so the boundary
r = 0.96 yields 2), with thresholds checked in descending order. -/
theorem spec_C3 (luckFn : Int → Int → ℚ) (i j : Int) :
    (luckFn i j < TOKEN_SPAWN_THRESHOLD →
      initialTokenForCell luckFn i j = none) ∧
    (TOKEN_VALUE_16_THRESHOLD < luckFn i j →
      initialTokenForCell luckFn i j = some 16) ∧
    (TOKEN_VALUE_8_THRESHOLD < luckFn i j ∧
        luckFn i j ≤ TOKEN_VALUE_16_THRESHOLD →
      initialTokenForCell luckFn i j = some 8) ∧
    (TOKEN_VALUE_4_THRESHOLD < luckFn i j ∧
        luckFn i j ≤ TOKEN_VALUE_8_THRESHOLD →
      initialTokenForCell luckFn i j = some 4) ∧
    (TOKEN_SPAWN_THRESHOLD ≤ luckFn i j ∧
        luckFn i j ≤ TOKEN_VALUE_4_THRESHOLD →
      initialTokenForCell luckFn i j = some 2) := by
  obtain ⟨o1, o2, o3⟩ := threshold_order
  unfold initialTokenForCell
  dsimp only
  refine ⟨fun h => ?_, fun h => ?_, fun h => ?_, fun h => ?_, fun h => ?_⟩ <;>
    split_ifs <;>
    first
      | rfl
      | (exfalso; simp only [not_lt] at *; linarith [h.1, h.2])
      | (exfalso; simp only [not_lt] at *; linarith)

/-- Witness for C3: one concrete hash value per generator band, with the
value-2 band exercised exactly at the implemented boundary r = 0.96. -/
theorem spec_C3_witness :
    ((fun _ _ => mkRat 1 2 : Int → Int → ℚ) 0 0 < TOKEN_SPAWN_THRESHOLD ∧
      initialTokenForCell (fun _ _ => mkRat 1 2) 0 0 = none) ∧
    (TOKEN_VALUE_16_THRESHOLD < (fun _ _ => mkRat 998 1000 : Int → Int → ℚ) 0 0 ∧
      initialTokenForCell (fun _ _ => mkRat 998 1000) 0 0 = some 16) ∧
    (TOKEN_VALUE_8_THRESHOLD < (fun _ _ => mkRat 995 1000 : Int → Int → ℚ) 0 0 ∧
      initialTokenForCell (fun _ _ => mkRat 995 1000) 0 0 = some 8) ∧
    (TOKEN_VALUE_4_THRESHOLD < (fun _ _ => mkRat 98 100 : Int → Int → ℚ) 0 0 ∧
      initialTokenForCell (fun _ _ => mkRat 98 100) 0 0 = some 4) ∧
    (TOKEN_SPAWN_THRESHOLD ≤ (fun _ _ => mkRat 96 100 : Int → Int → ℚ) 0 0 ∧
      initialTokenForCell (fun _ _ => mkRat 96 100) 0 0 = some 2) :=
  ⟨⟨by decide, (spec_C3 (fun _ _ => mkRat 1 2) 0 0).1 (by decide)⟩,
   ⟨by decide, (spec_C3 (fun _ _ => mkRat 998 1000) 0 0).2.1 (by decide)⟩,
   ⟨by decide, (spec_C3 (fun _ _ => mkRat 995 1000) 0 0).2.2.1
      ⟨by decide, by decide⟩⟩,
   ⟨by decide, (spec_C3 (fun _ _ => mkRat 98 100) 0 0).2.2.2.1
      ⟨by decide, by decide⟩⟩,
   ⟨by decide, (spec_C3 (fun _ _ => mkRat 96 100) 0 0).2.2.2.2
      ⟨by decide, by decide⟩⟩⟩

/-- C9: toCell is the componentwise floor of the coordinate divided by
the cell size (floor, not truncation toward zero), so coordinate 0 is the
boundary between cell -1 and cell 0 on each axis; any coordinate strictly
between -cellSize and 0 maps to index -1. -/
theorem spec_C9 (lat lng : ℚ) :
    latLngToCell lat lng =
      ⟨⌊lat / TILE_DEGREES⌋, ⌊lng / TILE_DEGREES⌋⟩ ∧
    (-TILE_DEGREES < lat → lat < 0 → (latLngToCell lat lng).i = -1) ∧
    (0 ≤ lat → lat < TILE_DEGREES → (latLngToCell lat lng).i = 0) ∧
    (-TILE_DEGREES < lng → lng < 0 → (latLngToCell lat lng).j = -1) ∧
    (0 ≤ lng → lng < TILE_DEGREES → (latLngToCell lat lng).j = 0) := by
  have hT : (0 : ℚ) < TILE_DEGREES := by decide
  refine ⟨rfl, ?_, ?_, ?_, ?_⟩
  · intro h1 h2
    show ⌊lat / TILE_DEGREES⌋ = -1
    rw [Int.floor_eq_iff]
    push_cast
    constructor
    · rw [le_div_iff₀ hT]
      linarith
    · rw [div_lt_iff₀ hT]
      linarith
  · intro h1 h2
    show ⌊lat / TILE_DEGREES⌋ = 0
    rw [Int.floor_eq_iff]
    push_cast
    constructor
    · positivity
    · rw [div_lt_iff₀ hT]
      linarith
  · intro h1 h2
    show ⌊lng / TILE_DEGREES⌋ = -1
    rw [Int.floor_eq_iff]
    push_cast
    constructor
    · rw [le_div_iff₀ hT]
      linarith
    · rw [div_lt_iff₀ hT]
      linarith
  · intro h1 h2
    show ⌊lng / TILE_DEGREES⌋ = 0
    rw [Int.floor_eq_iff]
    push_cast
    constructor
    · positivity
    · rw [div_lt_iff₀ hT]
      linarith

/-- Witness for C9: latitude -0.00005 (inside (-cellSize, 0)) maps to row
-1 and longitude 0.00005 (inside [0, cellSize)) maps to column 0. -/
theorem spec_C9_witness :
    (-TILE_DEGREES < mkRat (-1) 20000 ∧ mkRat (-1) 20000 < 0 ∧
      (latLngToCell (mkRat (-1) 20000) (mkRat 1 20000)).i = -1) ∧
    ((0 : ℚ) ≤ mkRat 1 20000 ∧ mkRat 1 20000 < TILE_DEGREES ∧
      (latLngToCell (mkRat (-1) 20000) (mkRat 1 20000)).j = 0) :=
  ⟨⟨by decide, by decide,
    (spec_C9 (mkRat (-1) 20000) (mkRat 1 20000)).2.1 (by decide) (by decide)⟩,
   ⟨by decide, by decide,
    (spec_C9 (mkRat (-1) 20000) (mkRat 1 20000)).2.2.2.2 (by decide)
      (by decide)⟩⟩

end WorldOfBits

namespace WorldOfBits

/-- Reading a cell whose override entry is known. -/
theorem getCellToken_lookup (luckFn : Int → Int → ℚ) (s : GameState)
    (i j : Int) (t : Token)
    (h : s.modifiedCells.lookup ⟨i, j⟩ = some t) :
    getCellToken luckFn s i j = t := by
  unfold getCellToken
  rw [h]

/-- C5: any interaction targeting a cell beyond Chebyshev distance
INTERACT_RADIUS = 3 from the player is rejected independently of
inventory and store contents, leaving the whole state unchanged; with the
player at (0,0), cell (3,3) passes the range gate and cell (4,0) is
rejected with no state change. -/
theorem spec_C5 (luckFn : Int → Int → ℚ) (s : GameState) (i j : Int) :
    (isInRange s.playerCell i j INTERACT_RADIUS = false →
      onCellClick luckFn s i j = (s, flashCell s i j)) ∧
    (s.playerCell = ⟨0, 0⟩ →
      isInRange s.playerCell 3 3 INTERACT_RADIUS = true) ∧
    (s.playerCell = ⟨0, 0⟩ →
      isInRange s.playerCell 4 0 INTERACT_RADIUS = false ∧
      (onCellClick luckFn s 4 0).1 = s) := by
  refine ⟨onCellClick_out luckFn s i j, ?_, ?_⟩
  · intro h
    rw [h]
    decide
  · intro h
    have hf : isInRange s.playerCell 4 0 INTERACT_RADIUS = false := by
      rw [h]
      decide
    exact ⟨hf, by rw [onCellClick_out luckFn s 4 0 hf]⟩

/-- Witness for C5: from the initial state (player at (0,0)), cell (3,3)
is in range, cell (4,0) is not, and clicking (4,0) changes nothing. -/
theorem spec_C5_witness :
    isInRange init.playerCell 3 3 INTERACT_RADIUS = true ∧
    isInRange init.playerCell 4 0 INTERACT_RADIUS = false ∧
    (onCellClick luckZero init 4 0).1 = init ∧
    onCellClick luckZero init 10 10 = (init, flashCell init 10 10) :=
  ⟨(spec_C5 luckZero init 3 3).2.1 rfl,
   ((spec_C5 luckZero init 4 0).2.2 rfl).1,
   ((spec_C5 luckZero init 4 0).2.2 rfl).2,
   (spec_C5 luckZero init 10 10).1 (by decide)⟩

/-- C4: an in-range interaction with inventory v onto a cell whose
effective token is also v crafts: the cell's effective token becomes 2v
and the inventory empties; with a different present value w the whole
state is unchanged. -/
theorem spec_C4 (luckFn : Int → Int → ℚ) (s : GameState) (i j v w : Int) :
    (isInRange s.playerCell i j INTERACT_RADIUS = true →
      s.inventory = some v →
      getCellToken luckFn s i j = some v →
      getCellToken luckFn (onCellClick luckFn s i j).1 i j =
        some (2 * v) ∧
      (onCellClick luckFn s i j).1.inventory = none) ∧
    (isInRange s.playerCell i j INTERACT_RADIUS = true →
      s.inventory = some v →
      getCellToken luckFn s i j = some w →
      v ≠ w →
      (onCellClick luckFn s i j).1 = s) := by
  constructor
  · intro hin hinv htok
    rw [onCellClick_craft luckFn s i j v hin hinv htok]
    refine ⟨?_, rfl⟩
    rw [mul_comm 2 v]
    exact getCellToken_lookup luckFn _ i j (some (v * 2))
      (Finmap.lookup_insert _)
  · intro hin hinv htok hne
    rw [onCellClick_mismatch luckFn s i j v w hin hinv htok hne]

/-- State holding a 2-token with an equal 2-token stored on cell (0,0). -/
def sCraft : GameState :=
  ⟨⟨0, 0⟩, some 2, Finmap.insert ⟨0, 0⟩ (some 2 : Token) ∅, ∅⟩

/-- State holding a 2-token facing a mismatched 4-token on cell (1,0). -/
def sWrong : GameState :=
  ⟨⟨0, 0⟩, some 2, Finmap.insert ⟨1, 0⟩ (some 4 : Token) ∅, ∅⟩

/-- Witness for C4: crafting 2 onto 2 yields effective token 4 and an
empty inventory; clicking a mismatched 4 with a 2 in hand changes
nothing. -/
theorem spec_C4_witness :
    (isInRange sCraft.playerCell 0 0 INTERACT_RADIUS = true ∧
      sCraft.inventory = some 2 ∧
      getCellToken luckZero sCraft 0 0 = some 2 ∧
      getCellToken luckZero (onCellClick luckZero sCraft 0 0).1 0 0 =
        some 4 ∧
      (onCellClick luckZero sCraft 0 0).1.inventory = none) ∧
    (isInRange sWrong.playerCell 1 0 INTERACT_RADIUS = true ∧
      sWrong.inventory = some 2 ∧
      getCellToken luckZero sWrong 1 0 = some 4 ∧
      (onCellClick luckZero sWrong 1 0).1 = sWrong) :=
  ⟨⟨by decide, rfl, by decide,
    (((spec_C4 luckZero sCraft 0 0 2 2).1 (by decide) rfl
        (by decide)).1).trans (by decide),
    ((spec_C4 luckZero sCraft 0 0 2 2).1 (by decide) rfl (by decide)).2⟩,
   ⟨by decide, rfl, by decide,
    (spec_C4 luckZero sWrong 1 0 2 4).2 (by decide) rfl (by decide)
      (by decide)⟩⟩

/-- C10: with an empty inventory and an in-range cell whose effective
token is v, clicking the cell twice (pickup then place) restores the
effective token v and the empty inventory, and leaves an override entry
recording v on that cell. -/
theorem spec_C10 (luckFn : Int → Int → ℚ) (s : GameState) (i j v : Int)
    (hin : isInRange s.playerCell i j INTERACT_RADIUS = true)
    (hinv : s.inventory = none)
    (htok : getCellToken luckFn s i j = some v) :
    getCellToken luckFn
      (onCellClick luckFn (onCellClick luckFn s i j).1 i j).1 i j =
      some v ∧
    (onCellClick luckFn (onCellClick luckFn s i j).1 i j).1.inventory =
      none ∧
    (onCellClick luckFn
        (onCellClick luckFn s i j).1 i j).1.modifiedCells.lookup ⟨i, j⟩ =
      some (some v) := by
  rw [onCellClick_pickup luckFn s i j v hin hinv htok]
  set s1 : GameState :=
    { s with
        inventory := some v
        modifiedCells := s.modifiedCells.insert ⟨i, j⟩ none
        cellLayers := insert ⟨i, j⟩ s.cellLayers } with hs1
  have hin1 : isInRange s1.playerCell i j INTERACT_RADIUS = true := hin
  have htok1 : getCellToken luckFn s1 i j = none :=
    getCellToken_lookup luckFn s1 i j none (Finmap.lookup_insert _)
  rw [onCellClick_place luckFn s1 i j v hin1 rfl htok1]
  refine ⟨?_, rfl, ?_⟩
  · exact getCellToken_lookup luckFn _ i j (some v) (Finmap.lookup_insert _)
  · exact Finmap.lookup_insert _

/-- Witness for C10: picking up the generated 8-token at (0,0) and
placing it back restores effective token 8 and leaves an override entry
recording it. -/
theorem spec_C10_witness :
    isInRange init.playerCell 0 0 INTERACT_RADIUS = true ∧
    init.inventory = none ∧
    getCellToken luckCraft init 0 0 = some 8 ∧
    getCellToken luckCraft
      (onCellClick luckCraft (onCellClick luckCraft init 0 0).1 0 0).1
      0 0 = some 8 ∧
    (onCellClick luckCraft
      (onCellClick luckCraft init 0 0).1 0 0).1.inventory = none ∧
    (onCellClick luckCraft
        (onCellClick luckCraft init 0 0).1 0 0).1.modifiedCells.lookup
      ⟨0, 0⟩ = some (some 8) :=
  ⟨by decide, rfl, by decide,
   (spec_C10 luckCraft init 0 0 8 (by decide) rfl (by decide)).1,
   (spec_C10 luckCraft init 0 0 8 (by decide) rfl (by decide)).2.1,
   (spec_C10 luckCraft init 0 0 8 (by decide) rfl (by decide)).2.2⟩

end WorldOfBits

namespace WorldOfBits

/-- C2: reconciliation destroys layers for cells that left the buffered
visible set but never removes an override entry: the store and inventory
are unchanged, and a modified cell still shows its stored state (its
memento token) after any reconciliation, so it re-enters view modified. -/
theorem spec_C2 (s : GameState) (minI maxI minJ maxJ : Int) :
    (drawVisibleGrid s minI maxI minJ maxJ).modifiedCells =
      s.modifiedCells ∧
    (drawVisibleGrid s minI maxI minJ maxJ).inventory = s.inventory ∧
    (∀ c : Cell, c ∉ visibleKeys minI maxI minJ maxJ →
      c ∉ (drawVisibleGrid s minI maxI minJ maxJ).cellLayers) ∧
    (∀ (luckFn : Int → Int → ℚ) (i j : Int) (t : Token),
      s.modifiedCells.lookup ⟨i, j⟩ = some t →
      getCellToken luckFn (drawVisibleGrid s minI maxI minJ maxJ) i j =
        t) := by
  refine ⟨rfl, rfl, ?_, ?_⟩
  · intro c hc
    unfold drawVisibleGrid
    simp only [Finset.mem_union, Finset.mem_filter]
    rintro (⟨-, hvis⟩ | hdrawn)
    · exact hc hvis
    · apply hc
      unfold visibleKeys
      rw [mem_cellRange] at hdrawn ⊢
      omega
  · intro luckFn i j t h
    exact getCellToken_lookup luckFn _ i j t h

/-- State with an override on (0,0) and a stale layer at (10,10). -/
def sMod : GameState :=
  ⟨⟨0, 0⟩, none, Finmap.insert ⟨0, 0⟩ (some 4 : Token) ∅, {⟨10, 10⟩}⟩

/-- Witness for C2: reconciling the viewport rows/columns 0..3 destroys
the layer at (10,10) (outside the buffered visible set) while keeping the
override store intact, and cell (0,0) still shows its stored token 4. -/
theorem spec_C2_witness :
    ((⟨10, 10⟩ : Cell) ∉ visibleKeys 0 3 0 3) ∧
    (drawVisibleGrid sMod 0 3 0 3).modifiedCells = sMod.modifiedCells ∧
    ((⟨10, 10⟩ : Cell) ∉ (drawVisibleGrid sMod 0 3 0 3).cellLayers) ∧
    sMod.modifiedCells.lookup ⟨0, 0⟩ = some (some 4) ∧
    getCellToken luckZero (drawVisibleGrid sMod 0 3 0 3) 0 0 = some 4 :=
  ⟨by decide, (spec_C2 sMod 0 3 0 3).1,
   (spec_C2 sMod 0 3 0 3).2.2.1 ⟨10, 10⟩ (by decide), by decide,
   (spec_C2 sMod 0 3 0 3).2.2.2 luckZero 0 0 (some 4) (by decide)⟩

/-- C6: starting from the empty store, a cell has an override entry iff
some accepted pickup, place or craft targeted it; after a run whose
accepted interactions touched N distinct cells, the store holds exactly
those N entries, regardless of reconciliations and viewport movement. -/
theorem spec_C6 (luckFn : Int → Int → ℚ) (es : List Event) :
    ((run luckFn init es).1.modifiedCells).keys =
      touchedCells luckFn init es ∧
    ((run luckFn init es).1.modifiedCells).keys.card =
      (touchedCells luckFn init es).card ∧
    ∀ c : Cell, c ∈ (run luckFn init es).1.modifiedCells ↔
      c ∈ touchedCells luckFn init es := by
  have h := run_store_keys luckFn es init
  have hempty : (init.modifiedCells).keys = ∅ := rfl
  rw [hempty, Finset.empty_union] at h
  refine ⟨h, by rw [h], fun c => ?_⟩
  rw [← Finmap.mem_keys, h]

/-- C7 as stated is false: the victory notification is re-emitted by
every craft whose result reaches the target, not only the first.  In this
four-click run the first craft reaches 16 ≥ TARGET_VALUE = 8 and fires;
the second craft also reaches 16 and fires again. -/
theorem spec_C7_cex :
    (run luckCraft init
      [Event.click 0 0, Event.click 0 1, Event.click 0 2,
       Event.click 0 3]).2 =
      [Signal.notification 16, Signal.notification 16] := by
  decide

/-- C7 (amended): the victory notification fires at every craft whose
resulting value reaches or exceeds TARGET_VALUE — including crafts after
an earlier victory — and crafting remains functional: the store records
2v and the inventory empties regardless of prior victories. -/
theorem spec_C7 (luckFn : Int → Int → ℚ) (s : GameState) (i j v : Int)
    (hin : isInRange s.playerCell i j INTERACT_RADIUS = true)
    (hinv : s.inventory = some v)
    (htok : getCellToken luckFn s i j = some v) :
    (onCellClick luckFn s i j).2 =
      (if TARGET_VALUE ≤ v * 2 then [Signal.notification (v * 2)]
       else []) ∧
    (onCellClick luckFn s i j).1.modifiedCells.lookup ⟨i, j⟩ =
      some (some (v * 2)) ∧
    (onCellClick luckFn s i j).1.inventory = none := by
  rw [onCellClick_craft luckFn s i j v hin hinv htok]
  exact ⟨rfl, Finmap.lookup_insert _, rfl⟩

/-- State holding an 8-token over an equal 8-token: the crafted 16
already passed TARGET_VALUE once in this session's history. -/
def sVictory : GameState :=
  ⟨⟨0, 0⟩, some 8, Finmap.insert ⟨0, 0⟩ (some 8 : Token) ∅, ∅⟩

/-- Witness for C7 (amended): crafting 8 onto 8 fires the notification
for 16 and updates store and inventory. -/
theorem spec_C7_witness :
    isInRange sVictory.playerCell 0 0 INTERACT_RADIUS = true ∧
    sVictory.inventory = some 8 ∧
    getCellToken luckZero sVictory 0 0 = some 8 ∧
    (onCellClick luckZero sVictory 0 0).2 = [Signal.notification 16] ∧
    (onCellClick luckZero sVictory 0 0).1.modifiedCells.lookup ⟨0, 0⟩ =
      some (some 16) ∧
    (onCellClick luckZero sVictory 0 0).1.inventory = none :=
  ⟨by decide, rfl, by decide,
   ((spec_C7 luckZero sVictory 0 0 8 (by decide) rfl (by decide)).1).trans
     (by decide),
   ((spec_C7 luckZero sVictory 0 0 8 (by decide) rfl
       (by decide)).2.1).trans (by decide),
   (spec_C7 luckZero sVictory 0 0 8 (by decide) rfl (by decide)).2.2⟩

/-- State with the player at (0,0), a 2-token in hand and a drawn layer
on (4,0): clicking (4,0) is rejected by the range gate. -/
def sOut : GameState := ⟨⟨0, 0⟩, some 2, ∅, {⟨4, 0⟩}⟩

/-- State with the player on (4,0), a 2-token in hand and a mismatched
4-token stored on (4,0): clicking (4,0) is an invalid combination. -/
def sMis : GameState :=
  ⟨⟨4, 0⟩, some 2, Finmap.insert ⟨4, 0⟩ (some 4 : Token) ∅, {⟨4, 0⟩}⟩

/-- C8 as stated is false: the two rejection kinds are not externally
distinguishable.  An out-of-range click on (4,0) and an in-range
invalid-combination click on (4,0) emit the identical signal
`flashCell(4, 0)` (the source calls `flashCell` in both branches), though
both indeed leave the state unchanged. -/
theorem spec_C8_cex :
    onCellClick luckZero sOut 4 0 = (sOut, [Signal.flash 4 0]) ∧
    onCellClick luckZero sMis 4 0 = (sMis, [Signal.flash 4 0]) ∧
    isInRange sOut.playerCell 4 0 INTERACT_RADIUS = false ∧
    isInRange sMis.playerCell 4 0 INTERACT_RADIUS = true ∧
    (onCellClick luckZero sOut 4 0).2 = (onCellClick luckZero sMis 4 0).2 := by
  refine ⟨?_, ?_, ?_, ?_, ?_⟩ <;> decide

/-- C8 (amended): an out-of-range rejection and an invalid-combination
rejection (mismatched values, or empty inventory on an empty cell)
produce the same externally observable signal — both call `flashCell` on
the target cell — and both leave the whole state, in particular inventory
and Override Store, unchanged. -/
theorem spec_C8 (luckFn : Int → Int → ℚ) (s : GameState) (i j v w : Int) :
    (isInRange s.playerCell i j INTERACT_RADIUS = false →
      onCellClick luckFn s i j = (s, flashCell s i j)) ∧
    (isInRange s.playerCell i j INTERACT_RADIUS = true →
      s.inventory = some v → getCellToken luckFn s i j = some w →
      v ≠ w → onCellClick luckFn s i j = (s, flashCell s i j)) ∧
    (isInRange s.playerCell i j INTERACT_RADIUS = true →
      s.inventory = none → getCellToken luckFn s i j = none →
      onCellClick luckFn s i j = (s, flashCell s i j)) :=
  ⟨onCellClick_out luckFn s i j,
   onCellClick_mismatch luckFn s i j v w,
   onCellClick_nothing luckFn s i j⟩

/-- Witness for C8 (amended): both concrete rejections return the
unchanged state paired with the same flash of (4,0). -/
theorem spec_C8_witness :
    isInRange sOut.playerCell 4 0 INTERACT_RADIUS = false ∧
    onCellClick luckZero sOut 4 0 = (sOut, flashCell sOut 4 0) ∧
    isInRange sMis.playerCell 4 0 INTERACT_RADIUS = true ∧
    sMis.inventory = some 2 ∧
    getCellToken luckZero sMis 4 0 = some 4 ∧
    onCellClick luckZero sMis 4 0 = (sMis, flashCell sMis 4 0) :=
  ⟨by decide, (spec_C8 luckZero sOut 4 0 2 4).1 (by decide), by decide,
   rfl, by decide,
   (spec_C8 luckZero sMis 4 0 2 4).2.1 (by decide) rfl (by decide)
     (by decide)⟩

end WorldOfBits
